import Mathlib

/-!
Verification of the `bittrex-rest-client` JavaScript library.

The development shallowly embeds the client found in
`src/bittrex-client.js` (and the revisions of the same class kept next to
it).  JavaScript objects are modelled as association lists of string keys
and `JsValue`s, and the client's mutable fields (`_apiKey`, `_apiSecret`,
`_nonce`) as an explicit `Client` record threaded through the operations.
Endpoint methods are split at the network boundary: the part before the
HTTP round trip returns either a thrown error message or the request the
transport would be handed; the part after the round trip maps the decoded
response envelope to the method's result.

HMAC-SHA512 (Node's `crypto.createHmac('sha512', …)`) is implemented in
full over `Nat`, with 64-bit arithmetic written as explicit `% 2 ^ 64`.
-/

namespace BittrexClient

set_option maxRecDepth 8192

/-- JavaScript runtime values, as far as the client manipulates them.
`date s` models `new Date(s)`: the claims under study only concern which
string the `Date` constructor receives, so the model carries that argument
verbatim. -/
inductive JsValue where
  | undefined
  | null
  | bool (b : Bool)
  | num (n : Int)
  | str (s : String)
  | date (s : String)
  | obj (fields : List (String × JsValue))
  | arr (elems : List JsValue)

/-- JavaScript truthiness of a value (`if (v)`). The model uses exact
integers, so the `NaN` case of numbers does not arise. -/
def jsTruthy : JsValue → Bool
  | .undefined => false
  | .null => false
  | .bool b => b
  | .num n => n != 0
  | .str s => s != ""
  | .date _ => true
  | .obj _ => true
  | .arr _ => true

/-- Property read `o[k]` on an object: the first binding of `k`, or
`undefined` when the key is absent. -/
def jsGetField : List (String × JsValue) → String → JsValue
  | [], _ => .undefined
  | (k', v) :: rest, k => if k' = k then v else jsGetField rest k

/-- Property write `o[k] = v` on an object: replaces the first binding of
`k`, or appends the key when it is absent (JS insertion order). -/
def jsSetField : List (String × JsValue) → String → JsValue → List (String × JsValue)
  | [], k, v => [(k, v)]
  | (k', w) :: rest, k, v =>
    if k' = k then (k', v) :: rest else (k', w) :: jsSetField rest k v

/-- An optional string argument: `none` models a missing (`undefined`)
parameter. -/
def jsTruthyOptStr : Option String → Bool
  | none => false
  | some s => s != ""

/-- An optional numeric argument; `none` models `undefined`/`null`. -/
def jsTruthyOptNum : Option Int → Bool
  | none => false
  | some n => n != 0

/-- String interpolation of a possibly-missing argument: a template
literal renders `undefined` as the string `"undefined"`. -/
def jsTemplateOpt : Option String → String
  | some s => s
  | none => "undefined"

/-- Lift an optional string argument to the value stored in an options
object. -/
def jsValOfOptStr : Option String → JsValue
  | some s => .str s
  | none => .undefined

/-- Lift an optional numeric argument to the value stored in an options
object. -/
def jsValOfOptNum : Option Int → JsValue
  | some n => .num n
  | none => .undefined

mutual

/-- JavaScript `String(v)` / template-literal coercion.  Arrays stringify
as their comma-joined elements; plain objects as `"[object Object]"`.  A
`Date` renders through the string it was built from (no claim in this
development stringifies a date). -/
def jsToString : JsValue → String
  | .undefined => "undefined"
  | .null => "null"
  | .bool b => if b then "true" else "false"
  | .num n => toString n
  | .str s => s
  | .date s => s
  | .obj _ => "[object Object]"
  | .arr es => String.intercalate "," (jsToStringList es)

/-- Stringification of array elements for `Array.prototype.toString`:
`null` and `undefined` elements render as the empty string. -/
def jsToStringList : List JsValue → List String
  | [] => []
  | .undefined :: rest => "" :: jsToStringList rest
  | .null :: rest => "" :: jsToStringList rest
  | v :: rest => jsToString v :: jsToStringList rest

end

/-!  ## `sanitizeParams` / `sanitizeRequestBody`

`src/bittrex-client.js` lines 310–317: a fresh object keeping exactly the
keys whose value is not `undefined`.  (`sanitizeRequestBody` in the other
revision is the identical function.) -/

def sanitizeParams : List (String × JsValue) → List (String × JsValue)
  | [] => []
  | (_, .undefined) :: rest => sanitizeParams rest
  | (k, v) :: rest => (k, v) :: sanitizeParams rest

/-!  ## `parseDates`

`src/bittrex-client.js` lines 326–334:

```
parseDates(results, keys) {
  for (const result of results) {
    for (const key of keys) {
      if (!result[key]) continue
      result[key] = new Date(`${result[key]}Z`)
    }
  }
  return results
}
```

The inner loop body, one designated key on one object: -/

def convertKey (o : List (String × JsValue)) (k : String) : List (String × JsValue) :=
  if jsTruthy (jsGetField o k) then
    jsSetField o k (.date (jsToString (jsGetField o k) ++ "Z"))
  else o

/-- The inner loop over all designated keys on one object. -/
def convertObj (o : List (String × JsValue)) (keys : List String) :
    List (String × JsValue) :=
  keys.foldl convertKey o

/-- One iteration of the outer `for...of` loop.  Property reads on a
non-object element yield `undefined`, so every designated key is skipped
and the element is returned unchanged. -/
def jsConvertElem (keys : List String) : JsValue → JsValue
  | .obj o => .obj (convertObj o keys)
  | v => v

/-- The whole of `parseDates`, with the dynamic typing of its argument
kept: `for (const result of results)` succeeds on arrays (and on strings,
whose characters have no designated properties and are left alone) and
throws `TypeError: results is not iterable` on any other value — in
particular on a single plain object. -/
def jsParseDates (results : JsValue) (keys : List String) : Except String JsValue :=
  match results with
  | .arr es => .ok (.arr (es.map (jsConvertElem keys)))
  | .str s => .ok (.str s)
  | _ => .error "results is not iterable"

/-- The `marketSummary` post-processing of the decoded payload
(`src/bittrex-client.js` lines 70–74): the single summary object is passed
to `parseDates` directly. -/
def marketSummaryPost (payload : JsValue) : Except String JsValue :=
  jsParseDates payload ["TimeStamp", "Created"]

/-- The `order` post-processing (`src/bittrex-client.js` lines 232–237): the
single order object is wrapped in a one-element array first. -/
def orderPost (payload : JsValue) : Except String JsValue :=
  jsParseDates (.arr [payload]) ["Opened", "Closed"]

/-!  ## SHA-512 and HMAC-SHA512

Node's `crypto.createHmac('sha512', secret).update(url).digest('hex')`
(and the `crypto-js` equivalents used by the `requestAuth` revision).
Bytes are `Nat`s below 256, 64-bit words are `Nat`s reduced `% 2 ^ 64`. -/

/-- Right rotation of a 64-bit word. -/
def rotr64 (x n : Nat) : Nat := ((x >>> n) ||| (x <<< (64 - n))) % 2 ^ 64

/-- SHA-512 small sigma 0. -/
def ssig0 (x : Nat) : Nat := rotr64 x 1 ^^^ rotr64 x 8 ^^^ (x >>> 7)

/-- SHA-512 small sigma 1. -/
def ssig1 (x : Nat) : Nat := rotr64 x 19 ^^^ rotr64 x 61 ^^^ (x >>> 6)

/-- SHA-512 big sigma 0. -/
def bsig0 (x : Nat) : Nat := rotr64 x 28 ^^^ rotr64 x 34 ^^^ rotr64 x 39

/-- SHA-512 big sigma 1. -/
def bsig1 (x : Nat) : Nat := rotr64 x 14 ^^^ rotr64 x 18 ^^^ rotr64 x 41

/-- SHA-512 choice function; the complement is taken against the 64-bit
all-ones word. -/
def chFn (x y z : Nat) : Nat := (x &&& y) ^^^ ((x ^^^ (2 ^ 64 - 1)) &&& z)

/-- SHA-512 majority function. -/
def majFn (x y z : Nat) : Nat := (x &&& y) ^^^ (x &&& z) ^^^ (y &&& z)

/-- The eight-word SHA-512 working state. -/
structure Sha512State where
  a : Nat
  b : Nat
  c : Nat
  d : Nat
  e : Nat
  f : Nat
  g : Nat
  h : Nat

/-- SHA-512 initial hash value (FIPS 180-4). -/
def sha512InitState : Sha512State :=
  ⟨7640891576956012808, 13503953896175478587, 4354685564936845355,
   11912009170470909681, 5840696475078001361, 11170449401992604703,
   2270897969802886507, 6620516959819538809⟩

/-- SHA-512 round constants (FIPS 180-4). -/
def sha512K : List Nat :=
  [4794697086780616226, 8158064640168781261, 13096744586834688815,
   16840607885511220156, 4131703408338449720, 6480981068601479193,
   10538285296894168987, 12329834152419229976, 15566598209576043074,
   1334009975649890238, 2608012711638119052, 6128411473006802146,
   8268148722764581231, 9286055187155687089, 11230858885718282805,
   13951009754708518548, 16472876342353939154, 17275323862435702243,
   1135362057144423861, 2597628984639134821, 3308224258029322869,
   5365058923640841347, 6679025012923562964, 8573033837759648693,
   10970295158949994411, 12119686244451234320, 12683024718118986047,
   13788192230050041572, 14330467153632333762, 15395433587784984357,
   489312712824947311, 1452737877330783856, 2861767655752347644,
   3322285676063803686, 5560940570517711597, 5996557281743188959,
   7280758554555802590, 8532644243296465576, 9350256976987008742,
   10552545826968843579, 11727347734174303076, 12113106623233404929,
   14000437183269869457, 14369950271660146224, 15101387698204529176,
   15463397548674623760, 17586052441742319658, 1182934255886127544,
   1847814050463011016, 2177327727835720531, 2830643537854262169,
   3796741975233480872, 4115178125766777443, 5681478168544905931,
   6601373596472566643, 7507060721942968483, 8399075790359081724,
   8693463985226723168, 9568029438360202098, 10144078919501101548,
   10430055236837252648, 11840083180663258601, 13761210420658862357,
   14299343276471374635, 14566680578165727644, 15097957966210449927,
   16922976911328602910, 17689382322260857208, 500013540394364858,
   748580250866718886, 1242879168328830382, 1977374033974150939,
   2944078676154940804, 3659926193048069267, 4368137639120453308,
   4836135668995329356, 5532061633213252278, 6448918945643986474,
   6902733635092675308, 7801388544844847127]

/-- Big-endian byte decomposition of a value into `len` bytes. -/
def bytesOfNatBE (n len : Nat) : List Nat :=
  (List.range len).map (fun i => (n >>> (8 * (len - 1 - i))) % 256)

/-- Big-endian 64-bit words of a byte list, eight bytes per word. -/
def wordsOfBytes : List Nat → List Nat
  | b0 :: b1 :: b2 :: b3 :: b4 :: b5 :: b6 :: b7 :: rest =>
    (((((((b0 * 256 + b1) * 256 + b2) * 256 + b3) * 256 + b4) * 256 + b5) * 256
        + b6) * 256 + b7) :: wordsOfBytes rest
  | _ => []

/-- One message-schedule extension step: appends
`σ1 w[t-2] + w[t-7] + σ0 w[t-15] + w[t-16]` for `t` the current length. -/
def schedStep (ws : List Nat) : List Nat :=
  let t := ws.length
  ws ++ [(ssig1 (ws.getD (t - 2) 0) + ws.getD (t - 7) 0 + ssig0 (ws.getD (t - 15) 0)
          + ws.getD (t - 16) 0) % 2 ^ 64]

/-- Iterate a function `n` times. -/
def applyN {α : Type} (fn : α → α) : Nat → α → α
  | 0, x => x
  | n + 1, x => applyN fn n (fn x)

/-- The 80-word SHA-512 message schedule of one block. -/
def sha512Schedule (ws : List Nat) : List Nat := applyN schedStep 64 ws

/-- One SHA-512 compression round. -/
def sha512Round (st : Sha512State) (kw : Nat × Nat) : Sha512State :=
  let t1 := (st.h + bsig1 st.e + chFn st.e st.f st.g + kw.1 + kw.2) % 2 ^ 64
  let t2 := (bsig0 st.a + majFn st.a st.b st.c) % 2 ^ 64
  ⟨(t1 + t2) % 2 ^ 64, st.a, st.b, st.c, (st.d + t1) % 2 ^ 64, st.e, st.f, st.g⟩

/-- Compression of one 128-byte block into the chaining state. -/
def sha512Compress (hv : Sha512State) (block : List Nat) : Sha512State :=
  let ws := sha512Schedule (wordsOfBytes block)
  let st := (sha512K.zip ws).foldl sha512Round hv
  ⟨(hv.a + st.a) % 2 ^ 64, (hv.b + st.b) % 2 ^ 64, (hv.c + st.c) % 2 ^ 64,
   (hv.d + st.d) % 2 ^ 64, (hv.e + st.e) % 2 ^ 64, (hv.f + st.f) % 2 ^ 64,
   (hv.g + st.g) % 2 ^ 64, (hv.h + st.h) % 2 ^ 64⟩

/-- Process the padded message 128 bytes at a time; the fuel is the byte
count, which bounds the number of blocks. -/
def sha512Blocks : Nat → Sha512State → List Nat → Sha512State
  | 0, hv, _ => hv
  | _, hv, [] => hv
  | fuel + 1, hv, bs => sha512Blocks fuel (sha512Compress hv (bs.take 128)) (bs.drop 128)

/-- SHA-512 of a byte list: pad to a multiple of 128 bytes with `0x80`,
zeros, and the 128-bit big-endian bit length, then compress each block. -/
def sha512Bytes (msg : List Nat) : List Nat :=
  let len := msg.length
  let padded := msg ++ [0x80] ++ List.replicate ((239 - len % 128) % 128) 0
      ++ bytesOfNatBE (8 * len) 16
  let hv := sha512Blocks padded.length sha512InitState padded
  ([hv.a, hv.b, hv.c, hv.d, hv.e, hv.f, hv.g, hv.h].map (fun w => bytesOfNatBE w 8)).flatten

/-- HMAC-SHA512 (RFC 2104 with a 128-byte block). -/
def hmacSha512 (key msg : List Nat) : List Nat :=
  let k0 := if 128 < key.length then sha512Bytes key else key
  let kp := k0 ++ List.replicate (128 - k0.length) 0
  sha512Bytes (kp.map (fun b => b ^^^ 0x5c)
    ++ sha512Bytes (kp.map (fun b => b ^^^ 0x36) ++ msg))

/-- Lowercase hexadecimal digit. -/
def hexChar (n : Nat) : Char :=
  if n < 10 then Char.ofNat (48 + n) else Char.ofNat (87 + n)

/-- Two lowercase hex digits of one byte (Node's `digest('hex')`). -/
def hexOfByte (b : Nat) : List Char := [hexChar (b / 16), hexChar (b % 16)]

/-- Lowercase hex string of a byte list. -/
def bytesToHex (l : List Nat) : String := String.mk (l.map hexOfByte).flatten

/-- Lowercase hexadecimal alphabet. -/
def isLowerHex (ch : Char) : Bool :=
  ch.isDigit || (97 ≤ ch.toNat && ch.toNat ≤ 102)

/-- UTF-8 encoding of one character. -/
def utf8Bytes (ch : Char) : List Nat :=
  let n := ch.toNat
  if n < 0x80 then [n]
  else if n < 0x800 then [0xC0 ||| (n >>> 6), 0x80 ||| (n &&& 0x3F)]
  else if n < 0x10000 then
    [0xE0 ||| (n >>> 12), 0x80 ||| ((n >>> 6) &&& 0x3F), 0x80 ||| (n &&& 0x3F)]
  else
    [0xF0 ||| (n >>> 18), 0x80 ||| ((n >>> 12) &&& 0x3F),
     0x80 ||| ((n >>> 6) &&& 0x3F), 0x80 ||| (n &&& 0x3F)]

/-- UTF-8 bytes of a string, as Node's `hash.update(string)` consumes it. -/
def strUtf8 (s : String) : List Nat := (s.data.map utf8Bytes).flatten

/-- Model of `crypto.createHash('sha512').update(s).digest('hex')`. -/
def sha512Hex (msg : List Nat) : String := bytesToHex (sha512Bytes msg)

/-- Model of `crypto.createHmac('sha512', key).update(msg).digest('hex')`. -/
def hmacSha512Hex (key msg : List Nat) : String := bytesToHex (hmacSha512 key msg)

/-!  ## Query-string serialization

`querystring.stringify` from Node, as used by `requestSignature`: each
key/value pair is rendered `escape(key) + '=' + escape(value)` and the
pairs are joined with `&`.  `querystring.escape` percent-encodes the UTF-8
bytes of every character outside `[A-Za-z0-9!'()*-._~]`, with uppercase
hex digits. -/

/-- Uppercase hexadecimal digit, as percent-encoding produces. -/
def hexUpperChar (n : Nat) : Char :=
  if n < 10 then Char.ofNat (48 + n) else Char.ofNat (55 + n)

/-- Percent-encoding of one byte. `Char.ofNat 37` is `%`. -/
def pctEncodeByte (b : Nat) : List Char :=
  [Char.ofNat 37, hexUpperChar (b / 16), hexUpperChar (b % 16)]

/-- Characters `querystring.escape` leaves unencoded. `Char.ofNat 39` is
the single quote. -/
def qsUnescaped (ch : Char) : Bool :=
  ch.isAlphanum || ch == Char.ofNat 33 || ch == Char.ofNat 39 || ch == Char.ofNat 40
    || ch == Char.ofNat 41 || ch == Char.ofNat 42 || ch == Char.ofNat 45
    || ch == Char.ofNat 46 || ch == Char.ofNat 95 || ch == Char.ofNat 126

/-- Model of `querystring.escape`. -/
def qsEscape (s : String) : String :=
  String.mk (s.data.map (fun ch =>
    if qsUnescaped ch then [ch] else ((utf8Bytes ch).map pctEncodeByte).flatten)).flatten

/-- Node's `stringifyPrimitive`: strings pass through, numbers and
booleans render decimally, anything else becomes the empty string. -/
def qsStringifyPrimitive : JsValue → String
  | .str s => s
  | .num n => toString n
  | .bool b => if b then "true" else "false"
  | _ => ""

/-- Model of `querystring.stringify` on an object. -/
def qsStringify (params : List (String × JsValue)) : String :=
  String.intercalate "&" (params.map (fun kv =>
    qsEscape kv.1 ++ "=" ++ qsEscape (qsStringifyPrimitive kv.2)))

/-!  ## The client and its signed-request pipeline

`src/bittrex-client.js` lines 14–22 (constructor) and 273–302
(`request` / `requestSignature`). -/

/-- The client instance: `_apiKey`, `_apiSecret` and the mutable `_nonce`
counter seeded from `Date.now()`.  The constructor defaults `apiKey` to
`null`, modelled by `none`; an authenticated client is built with a string
secret (Node's `createHmac` rejects a null key), so the secret is carried
as a plain string. -/
structure Client where
  apiKey : Option String
  apiSecret : String
  nonce : Nat

/-- The base URL from `axios.create({ baseURL: ... })` — exposed as
`this._client.defaults.baseURL`. -/
def baseURL : String := "https://api.bittrex.com/v3"

/-- The request handed to the HTTP transport by
`this._client.request({ method, url, headers, params })`. -/
structure HttpRequest where
  method : String
  url : String
  headers : List (String × String)
  params : List (String × JsValue)

/-- Header read on the string-valued header object. -/
def getStrField : List (String × String) → String → Option String
  | [], _ => none
  | (k', v) :: rest, k => if k' = k then some v else getStrField rest k

/-- Header write `headers[k] = v`. -/
def setStrField : List (String × String) → String → String → List (String × String)
  | [], k, v => [(k, v)]
  | (k', w) :: rest, k, v =>
    if k' = k then (k', v) :: rest else (k', w) :: setStrField rest k v

/-- Headers with a given key removed, used to compare two header objects
everywhere except at that key. -/
def dropStrField (hs : List (String × String)) (k : String) : List (String × String) :=
  hs.filter (fun p => p.1 != k)

/-- Model of `requestSignature(path, params)` (lines 297–302): HMAC-SHA512, keyed
by the API secret, of `baseURL + path + '?' + querystring.stringify(params)`,
rendered as lowercase hex. -/
def requestSignature (c : Client) (path : String) (params : List (String × JsValue)) :
    String :=
  hmacSha512Hex (strUtf8 c.apiSecret)
    (strUtf8 (baseURL ++ path ++ "?" ++ qsStringify params))

/-- The pre-network part of `request(method, url, { headers, params })`
(lines 273–282): sanitize the params; when the API key is truthy, attach
`nonce = ++this._nonce` and `apikey`, and set the `apisign` header to the
request signature.  Returns the transport request together with the
updated client. -/
def request (c : Client) (method url : String) (headers : List (String × String))
    (params : List (String × JsValue)) : HttpRequest × Client :=
  let params := sanitizeParams params
  if jsTruthyOptStr c.apiKey then
    let n := c.nonce + 1
    let params := jsSetField params "nonce" (.num (n : Int))
    let params := jsSetField params "apikey" (.str (c.apiKey.getD ""))
    let headers := setStrField headers "apisign" (requestSignature c url params)
    ({ method := method, url := url, headers := headers, params := params },
     { c with nonce := n })
  else
    ({ method := method, url := url, headers := headers, params := params }, c)

/-- The post-network part of `request` (lines 284–288): the legacy
envelope `{ success, message, result }`. -/
structure Envelope where
  success : Bool
  message : String
  result : JsValue

/-- Source: `if (!data.success) throw new Error(data.message); return data.result`. -/
def handleResponse (env : Envelope) : Except String JsValue :=
  if !env.success then .error env.message else .ok env.result

/-!  ## Endpoint methods (pre-network part)

Each returns either the message of the locally thrown `Error` or the
request handed to the transport (with the client as updated by
`request`). -/

/-- Model of `marketSummary(market)`, lines 70–74. -/
def marketSummary (c : Client) (market : Option String) :
    Except String (HttpRequest × Client) :=
  if !jsTruthyOptStr market then .error "market is required"
  else .ok (request c "get" ("/markets/" ++ jsTemplateOpt market ++ "/summary") [] [])

/-- Model of `marketHistory(market)`, lines 81–85. -/
def marketHistory (c : Client) (market : Option String) :
    Except String (HttpRequest × Client) :=
  if !jsTruthyOptStr market then .error "market is required"
  else .ok (request c "get" ("/markets/" ++ jsTemplateOpt market ++ "/trades") [] [])

/-- Model of `orderBook(market, depth)`, lines 93–97.  The third argument passed to
`request` is `{ depth }`, which has neither a `headers` nor a `params`
field, so the destructured defaults leave both empty. -/
def orderBook (c : Client) (market : Option String) (depth : Option Int) :
    Except String (HttpRequest × Client) :=
  if !jsTruthyOptStr market then .error "market is required"
  else if !jsTruthyOptNum depth then .error "options.depth is required"
  else .ok (request c "get" ("/markets/" ++ jsTemplateOpt market ++ "/orderbook") [] [])

/-- Model of `balance(currency)`, lines 183–187. -/
def balance (c : Client) (currency : Option String) :
    Except String (HttpRequest × Client) :=
  if !jsTruthyOptStr currency then .error "currency is required"
  else .ok (request c "get" "/account/getbalance" []
    [("currency", jsValOfOptStr currency)])

/-- Model of `depositAddress(currency)`, lines 194–198. -/
def depositAddress (c : Client) (currency : Option String) :
    Except String (HttpRequest × Client) :=
  if !jsTruthyOptStr currency then .error "currency is required"
  else .ok (request c "get" "/account/getdepositaddress" []
    [("currency", jsValOfOptStr currency)])

/-- The GET request issued by the simple (unauthenticated) `request`
method of the `getCandles*` revision, which takes only a method and a
URL. -/
structure SimpleRequest where
  method : String
  url : String

/-- Model of `getCandlesHistorical(marketSymbol, candleInterval, year, month, day,
candleType)` (`src/unnamed/part_001` lines 667–670).  Unlike its sibling
`getCandlesRecent` (lines 641–646), it performs no argument validation:
the request is issued unconditionally, with missing arguments interpolated
as the string `"undefined"`. -/
def getCandlesHistorical (marketSymbol candleInterval : Option String)
    (year month day : Nat) (candleType : String) : Except String SimpleRequest :=
  .ok { method := "GET"
        url := "/markets/" ++ jsTemplateOpt marketSymbol ++ "/candles/" ++ candleType
          ++ "/" ++ jsTemplateOpt candleInterval ++ "/historical/" ++ toString year
          ++ "/" ++ toString month ++ "/" ++ toString day }

/-!  ## JavaScript bitwise-OR coercions

`sendOrder`'s validation chain compares with expressions of the shape
`x !== 'A'|'B'` and `x === 'A'|'B' && …`.  In JavaScript `!==`/`===` bind
tighter than `|`, and `|` applies `ToInt32` to its operands: a boolean
becomes `0`/`1`, and a string becomes `ToInt32(ToNumber(s))`, which is `0`
for every non-numeric string (`ToNumber` yields `NaN`).  The combinators
below spell this out so the validation chain can be transcribed
expression by expression. -/

/-- Two's-complement reading of a 32-bit pattern. -/
def int32OfUInt32 (n : Nat) : Int :=
  if n < 2 ^ 31 then (n : Int) else (n : Int) - 2 ^ 32

/-- ECMAScript `ToUint32` of an exact integer. -/
def uint32OfInt (i : Int) : Nat := (i % (2 ^ 32 : Int)).toNat

/-- ECMAScript `ToInt32` applied to a string: decimal strings wrap into
32 bits; any other string passes through `NaN` and becomes `0`.  (Every
string literal in the validation chain is non-numeric.) -/
def jsStringToInt32 (s : String) : Int :=
  if s.data.isEmpty || !s.data.all Char.isDigit then 0
  else int32OfUInt32 ((s.data.foldl (fun n ch => n * 10 + (ch.toNat - 48)) 0) % 2 ^ 32)

/-- ECMAScript `ToInt32` of a boolean. -/
def jsBoolToInt32 (b : Bool) : Int := if b then 1 else 0

/-- JavaScript `x | y` on already-converted 32-bit integers. -/
def jsBitOr (a b : Int) : Int := int32OfUInt32 (Nat.lor (uint32OfInt a) (uint32OfInt b))

/-- Truthiness of an integer (`if (i)`). -/
def jsTruthyInt (i : Int) : Bool := i != 0

/-- Truthiness of the JS expression `x !== lit | lits…`, i.e.
`(x !== lit) | ToInt32(l₁) | ToInt32(l₂) | …`. -/
def jsNeqChain (x lit : String) (lits : List String) : Bool :=
  jsTruthyInt (lits.foldl (fun acc l => jsBitOr acc (jsStringToInt32 l))
    (jsBoolToInt32 (x != lit)))

/-- Truthiness of the JS expression `x === lit | lits…`, the left operand
of the `&&` guards. -/
def jsEqChain (x lit : String) (lits : List String) : Bool :=
  jsTruthyInt (lits.foldl (fun acc l => jsBitOr acc (jsStringToInt32 l))
    (jsBoolToInt32 (x == lit)))

/-!  ## Scheme B: `requestAuth` and `sendOrder`

`src/unnamed/part_001` lines 1015–1027 (`requestAuth`) and 712–726
(`sendOrder`). -/

/-- The authenticated request of the body-hash revision: API key,
timestamp, content hash and signed message travel as headers. -/
structure AuthRequest where
  method : String
  url : String
  apiKey : Option String
  timestamp : Nat
  contentHash : String
  signedMessage : String
  content : List (String × JsValue)

/-- Model of `requestAuth(method, url, requestBody)` (lines 1015–1027).
`Date.now()` is passed in as `timestamp`.  The body is sanitized, the
template `${content}` stringifies the object (to `"[object Object]"`),
and its SHA-512 becomes the content hash.  `this._client.baseURL` is
`undefined` on an axios instance (the configured value lives under
`defaults`), so the signed path is the string `"undefined"` followed by
the url.  The pre-sign string is `timestamp + path + method + contentHash`
and is HMAC-SHA512-signed with the API secret. -/
def requestAuth (c : Client) (timestamp : Nat) (method url : String)
    (requestBody : List (String × JsValue)) : AuthRequest :=
  let content := sanitizeParams requestBody
  let contentHash := sha512Hex (strUtf8 (jsToString (.obj content)))
  let path := "undefined" ++ url
  let preSign := toString timestamp ++ path ++ method ++ contentHash
  { method := method, url := url, apiKey := c.apiKey, timestamp := timestamp
    contentHash := contentHash
    signedMessage := hmacSha512Hex (strUtf8 c.apiSecret) (strUtf8 preSign)
    content := content }

/-- Model of `sendOrder(marketSymbol, direction, type, {quantity, ceiling, limit},
timeInForce, clientOrderId, useAwards)` (lines 712–726), with the
destructuring defaults already applied to the trailing arguments.  The
validation chain is transcribed condition by condition; the `jsNeqChain` /
`jsEqChain` combinators carry the `|`-coercion semantics of the source's
comparison patterns. -/
def sendOrder (c : Client) (timestamp : Nat) (marketSymbol : Option String)
    (direction type : String) (quantity ceiling limit : Option Int)
    (timeInForce clientOrderId : String) (useAwards : Bool) :
    Except String AuthRequest :=
  if !jsTruthyOptStr marketSymbol then .error "marketSymbol is required"
  else if jsNeqChain direction "BUY" ["SELL"] then
    .error "direction must be either 'BUY' or 'SELL'"
  else if jsNeqChain type "LIMIT" ["MARKET", "CEILING_LIMIT", "CEILING_MARKET"] then
    .error "type must be either: ['LIMIT'|'MARKET'|'CEILING_LIMIT'|'CEILING_MARKET']"
  else if jsEqChain type "LIMIT" ["MARKET"] && !jsTruthyOptNum quantity then
    .error "quantity must be included if type=['MARKET'|'LIMIT']"
  else if jsEqChain type "LIMIT" ["MARKET"] && jsTruthyOptNum ceiling then
    .error "Do not specify ceiling if type=['MARKET'|'LIMIT']"
  else if jsEqChain type "CIELING_LIMIT" ["CIELING_MARKET"] && !jsTruthyOptNum ceiling then
    .error "ceiling must be included if type=['CEILING_MARKET'|'CEILING_LIMIT']"
  else if jsEqChain type "CIELING_LIMIT" ["CIELING_MARKET"] && jsTruthyOptNum quantity then
    .error "Do not specify quantity if type=['CEILING_MARKET'|'CEILING_LIMIT']"
  else if jsEqChain type "LIMIT" ["CEILING_LIMIT"] && !jsTruthyOptNum limit then
    .error "limit must be included if type=['LIMIT'|'CEILING_LIMIT']"
  else if jsEqChain type "MARKET" ["CEILING_MARKET"] && jsTruthyOptNum limit then
    .error "Do not specify limit if type=['MARKET'|'CEILING_MARKET']"
  else if jsNeqChain timeInForce "GOOD_TIL_CANCELLED"
      ["IMMEDIATE_OR_CANCEL", "FILL_OR_KILL", "POST_ONLY_GOOD_TIL_CANCELLED",
       "BUY_NOW", "INSTANT"] then
    .error "timeInForce must be one of: ['GOOD_TIL_CANCELLED'|'IMMEDIATE_OR_CANCEL'|'FILL_OR_KILL'|'POST_ONLY_GOOD_TIL_CANCELLED'|'BUY_NOW'|'INSTANT']"
  else
    .ok (requestAuth c timestamp "POST" "/orders"
      [("marketSymbol", jsValOfOptStr marketSymbol), ("direction", .str direction),
       ("type", .str type), ("quantity", jsValOfOptNum quantity),
       ("ceiling", jsValOfOptNum ceiling), ("limit", jsValOfOptNum limit),
       ("timeInForce", .str timeInForce), ("clientOrderId", .str clientOrderId),
       ("useAwards", .bool useAwards)])

/-!  ## Multi-call traces -/

/-- The arguments of one call into the private `request` method. -/
structure Call where
  method : String
  url : String
  headers : List (String × String)
  params : List (String × JsValue)

/-- Issue a sequence of calls through one client instance, collecting the
transport requests in order. -/
def runCalls (c : Client) : List Call → List HttpRequest × Client
  | [] => ([], c)
  | call :: rest =>
    let rc := request c call.method call.url call.headers call.params
    let rs := runCalls rc.2 rest
    (rc.1 :: rs.1, rs.2)

/-- The `nonce` query parameter attached to a request. -/
def nonceOf (r : HttpRequest) : Int :=
  match jsGetField r.params "nonce" with
  | .num n => n
  | _ => 0

/-- A concrete authenticated client used to instantiate the theorems:
`apiKey` and `apiSecret` strings, nonce seeded from a `Date.now()`
value. -/
def sampleClient : Client :=
  { apiKey := some "key", apiSecret := "secret", nonce := 1600000000000 }

/-!  ## HMAC-SHA512 test vectors -/

/-- FIPS 180-4 test vector: SHA-512 of the empty message. -/
theorem sha512Hex_empty_vector :
    sha512Hex [] =
      "cf83e1357eefb8bdf1542850d66d8007d620e4050b5715dc83f4a921d36ce9ce47d0d13c5d85f2b0ff8318d2877eec2f63b931bd47417a81a538327af927da3e" := by
  rfl

/-- RFC 4231 test case 2: HMAC-SHA512 with key `"Jefe"`. -/
theorem hmacSha512Hex_rfc4231_vector :
    hmacSha512Hex (strUtf8 "Jefe") (strUtf8 "what do ya want for nothing?") =
      "164b7a7bfcf819e2e395fbe73b56e0a387bd64222e831fd610270cd7ea2505549758bf75c05a994a6d034f65f8f0e6fdcaeab1a34d4a6b4b636e070a38bce737" := by
  rfl

/-!  ## Association-list lemmas -/

theorem jsGetField_jsSetField_self (o : List (String × JsValue)) (k : String)
    (v : JsValue) : jsGetField (jsSetField o k v) k = v := by
  induction o with
  | nil => simp [jsGetField, jsSetField]
  | cons kv rest ih =>
    obtain ⟨k', w⟩ := kv
    by_cases hk : k' = k <;> simp [jsGetField, jsSetField, hk, ih]

theorem jsGetField_jsSetField_ne (o : List (String × JsValue)) (k k' : String)
    (v : JsValue) (h : k' ≠ k) :
    jsGetField (jsSetField o k v) k' = jsGetField o k' := by
  induction o with
  | nil => simp [jsGetField, jsSetField, Ne.symm h]
  | cons kv rest ih =>
    obtain ⟨k'', w⟩ := kv
    by_cases hk : k'' = k
    · subst hk
      simp [jsGetField, jsSetField, Ne.symm h]
    · by_cases hk' : k'' = k' <;>
        simp [jsGetField, jsSetField, hk, hk', h, Ne.symm h, ih]

theorem getStrField_setStrField_self (hs : List (String × String)) (k v : String) :
    getStrField (setStrField hs k v) k = some v := by
  induction hs with
  | nil => simp [getStrField, setStrField]
  | cons kv rest ih =>
    obtain ⟨k', w⟩ := kv
    by_cases hk : k' = k <;> simp [getStrField, setStrField, hk, ih]

theorem dropStrField_setStrField (hs : List (String × String)) (k v : String) :
    dropStrField (setStrField hs k v) k = dropStrField hs k := by
  induction hs with
  | nil => simp [dropStrField, setStrField]
  | cons kv rest ih =>
    obtain ⟨k', w⟩ := kv
    by_cases hk : k' = k
    · subst hk
      simp [dropStrField, setStrField]
    · simpa [dropStrField, setStrField, hk] using ih

/-!  ## C2 — envelope unwrapping -/

/-- C2: for every response envelope, a `success: true` envelope makes the
operation return exactly the envelope's `result` payload, and a
non-success envelope makes it fail with an error whose message is exactly
the exchange-provided `message` text. -/
theorem claim2_envelope_unwrap (env : Envelope) :
    (env.success = true → handleResponse env = .ok env.result)
    ∧ (env.success = false → handleResponse env = .error env.message) := by
  obtain ⟨s, m, r⟩ := env
  cases s <;> simp [handleResponse]

/-- Witness for C2 at the spec's own example envelope
`{success: false, message: "INSUFFICIENT_FUNDS"}`. -/
theorem claim2_envelope_unwrap_witness :
    handleResponse ⟨false, "INSUFFICIENT_FUNDS", .null⟩ =
      .error "INSUFFICIENT_FUNDS" :=
  (claim2_envelope_unwrap ⟨false, "INSUFFICIENT_FUNDS", .null⟩).2 rfl

/-!  ## C5 — parameter sanitization -/

/-- C5: sanitization keeps exactly the bindings whose value is not
`undefined`, each with its value unchanged; in particular
`{a: 1, b: undefined}` sanitizes to exactly `{a: 1}`. -/
theorem claim5_sanitize_drops_undefined (params : List (String × JsValue))
    (k : String) (v : JsValue) :
    ((k, v) ∈ sanitizeParams params ↔ (k, v) ∈ params ∧ v ≠ JsValue.undefined)
    ∧ sanitizeParams [("a", JsValue.num 1), ("b", JsValue.undefined)]
        = [("a", JsValue.num 1)] := by
  constructor
  · induction params with
    | nil => simp [sanitizeParams]
    | cons kv rest ih =>
      obtain ⟨k', w⟩ := kv
      cases w <;>
        simp_all [sanitizeParams, Prod.ext_iff] <;>
        aesop
  · rfl

/-!  ## C6 / C7 — date normalization -/

theorem convertKey_get_self (o : List (String × JsValue)) (k : String) :
    jsGetField (convertKey o k) k =
      if jsTruthy (jsGetField o k) then
        .date (jsToString (jsGetField o k) ++ "Z")
      else jsGetField o k := by
  unfold convertKey
  split
  · rw [jsGetField_jsSetField_self]
  · rfl

theorem convertKey_get_ne (o : List (String × JsValue)) (k k' : String)
    (h : k' ≠ k) : jsGetField (convertKey o k) k' = jsGetField o k' := by
  unfold convertKey
  split
  · rw [jsGetField_jsSetField_ne _ _ _ _ h]
  · rfl

theorem convertObj_get_notMem (o : List (String × JsValue)) (keys : List String)
    (k : String) (h : k ∉ keys) :
    jsGetField (convertObj o keys) k = jsGetField o k := by
  induction keys generalizing o with
  | nil => rfl
  | cons k0 rest ih =>
    have hne : k ≠ k0 := fun hk => h (hk ▸ List.mem_cons_self k0 rest)
    have hrest : k ∉ rest := fun hk => h (List.mem_cons_of_mem k0 hk)
    show jsGetField (convertObj (convertKey o k0) rest) k = jsGetField o k
    rw [ih _ hrest, convertKey_get_ne _ _ _ hne]

theorem convertObj_get_mem (o : List (String × JsValue)) (keys : List String)
    (k : String) (hnd : keys.Nodup) (hmem : k ∈ keys) :
    jsGetField (convertObj o keys) k =
      if jsTruthy (jsGetField o k) then
        .date (jsToString (jsGetField o k) ++ "Z")
      else jsGetField o k := by
  induction keys generalizing o with
  | nil => cases hmem
  | cons k0 rest ih =>
    rcases List.mem_cons.mp hmem with hk | hk
    · subst hk
      have hrest : k ∉ rest := (List.nodup_cons.mp hnd).1
      show jsGetField (convertObj (convertKey o k) rest) k = _
      rw [convertObj_get_notMem _ _ _ hrest, convertKey_get_self]
    · have hne : k ≠ k0 := fun h => (List.nodup_cons.mp hnd).1 (h ▸ hk)
      show jsGetField (convertObj (convertKey o k0) rest) k = _
      rw [ih _ (List.nodup_cons.mp hnd).2 hk, convertKey_get_ne _ _ _ hne]

/-- C6: on an array of response objects with a duplicate-free list of
designated date keys, `parseDates` maps each element through the per-key
conversion; on each object a present, truthy designated field becomes the
date built from the original string with `"Z"` appended, a designated
field that is absent or falsy is left untouched (and nothing is thrown),
and a field outside the designated keys is unchanged. -/
theorem claim6_parse_dates_fields (es : List JsValue)
    (o : List (String × JsValue)) (keys : List String) (k : String)
    (hnd : keys.Nodup) :
    jsParseDates (.arr es) keys = .ok (.arr (es.map (jsConvertElem keys)))
    ∧ jsConvertElem keys (.obj o) = .obj (convertObj o keys)
    ∧ (jsTruthy (jsGetField o k) = true → k ∈ keys →
        jsGetField (convertObj o keys) k =
          .date (jsToString (jsGetField o k) ++ "Z"))
    ∧ (jsTruthy (jsGetField o k) = false →
        jsGetField (convertObj o keys) k = jsGetField o k)
    ∧ (k ∉ keys → jsGetField (convertObj o keys) k = jsGetField o k) := by
  refine ⟨rfl, rfl, ?_, ?_, convertObj_get_notMem o keys k⟩
  · intro ht hmem
    rw [convertObj_get_mem o keys k hnd hmem, if_pos ht]
  · intro hf
    by_cases hmem : k ∈ keys
    · rw [convertObj_get_mem o keys k hnd hmem, if_neg (by simp [hf])]
    · exact convertObj_get_notMem o keys k hmem

/-- Witness for C6 on a concrete trade object: the truthy `TimeStamp`
field is parsed with a `"Z"` marker appended. -/
theorem claim6_parse_dates_fields_witness :
    jsGetField
      (convertObj [("TimeStamp", JsValue.str "2014-07-09T07:19:30.15"),
                   ("Quantity", JsValue.num 3)] ["TimeStamp"])
      "TimeStamp" = JsValue.date "2014-07-09T07:19:30.15Z" :=
  (claim6_parse_dates_fields []
      [("TimeStamp", JsValue.str "2014-07-09T07:19:30.15"),
       ("Quantity", JsValue.num 3)]
      ["TimeStamp"] "TimeStamp" (by simp)).2.2.1 rfl (by simp)

/-- C7 is false on the code: `parseDates` iterates its argument with
`for...of`, so the single-object response shape — which `marketSummary`
(lines 70–74) passes directly — raises `TypeError: results is not
iterable` instead of converting its fields.  (The `order` method wraps its
single object in an array precisely to avoid this, and a sibling revision
of `parseDates` carries the same TypeError observation in a comment.)
The first conjunct evaluates the failing input; the second shows the
array-wrapped shape used by `order` succeeding on the same data. -/
theorem claim7_parse_dates_single_object_bug :
    marketSummaryPost
        (.obj [("MarketName", .str "BTC-USD"),
               ("TimeStamp", .str "2014-07-09T07:19:30.15")])
      = .error "results is not iterable"
    ∧ orderPost (.obj [("Opened", .str "2014-07-09T07:19:30.15")])
      = .ok (.arr [.obj [("Opened", .date "2014-07-09T07:19:30.15Z")]]) :=
  ⟨rfl, rfl⟩

/-!  ## C3 — local validation of required symbol arguments -/

/-- C3 is false on the code as a whole: the validating endpoints
(`marketSummary`, `marketHistory`, `orderBook`, `balance`,
`depositAddress`) do fail locally with the documented message and an
unchanged client when the symbol argument is missing, but
`getCandlesHistorical` — named by the claim — performs no validation at
all and hands the transport a request with `"undefined"` interpolated
into the path. -/
theorem claim3_missing_arg_validation_bug :
    marketSummary sampleClient none = .error "market is required"
    ∧ marketHistory sampleClient none = .error "market is required"
    ∧ orderBook sampleClient none (some 25) = .error "market is required"
    ∧ balance sampleClient none = .error "currency is required"
    ∧ depositAddress sampleClient none = .error "currency is required"
    ∧ getCandlesHistorical none (some "MINUTE_5") 2020 1 1 "TRADE"
      = .ok { method := "GET"
              url := "/markets/undefined/candles/TRADE/MINUTE_5/historical/2020/1/1" } :=
  ⟨rfl, rfl, rfl, rfl, rfl, rfl⟩

/-!  ## C10 — the depth argument of `orderBook` -/

/-- C10: whenever the `depth` argument is omitted, zero, or otherwise
falsy, `orderBook` fails locally — no transport request is produced —
even though the method's own documentation calls `depth` optional with a
default of 25. -/
theorem claim10_depth_required (c : Client) (market : Option String)
    (depth : Option Int) (h : jsTruthyOptNum depth = false) :
    ∃ msg, orderBook c market depth = .error msg := by
  unfold orderBook
  by_cases hm : jsTruthyOptStr market
  · exact ⟨"options.depth is required", by simp [hm, h]⟩
  · exact ⟨"market is required", by simp [hm]⟩

/-- Witness for C10: requesting the order book with the depth omitted. -/
theorem claim10_depth_required_witness :
    ∃ msg, orderBook sampleClient (some "BTC-USD") none = .error msg :=
  claim10_depth_required sampleClient (some "BTC-USD") none rfl

/-!  ## C4 — the direction/type allowed-value checks of `sendOrder` -/

/-- C4 is false on the code: because `===`/`!==` bind tighter than `|`,
the guard `direction !== 'BUY'|'SELL'` is `(direction !== 'BUY') | 0` and
throws for `'SELL'`, and `type !== 'LIMIT'|'MARKET'|…` throws for every
type except `'LIMIT'`.  The first conjunct is the repo's own test call
(`test/index.js` line 84: a BUY MARKET order expected to reach the
exchange), which the validation chain rejects locally; the second shows a
SELL order rejected by the direction check; the third shows the only
combination the chain lets through, `'BUY'`/`'LIMIT'`. -/
theorem claim4_direction_type_check_bug :
    sendOrder sampleClient 1600000000000 (some "BTC-USD") "BUY" "MARKET"
        (some 5000) none none "GOOD_TIL_CANCELLED" "" false
      = .error "type must be either: ['LIMIT'|'MARKET'|'CEILING_LIMIT'|'CEILING_MARKET']"
    ∧ sendOrder sampleClient 1600000000000 (some "BTC-USD") "SELL" "LIMIT"
        (some 1) none (some 9000) "GOOD_TIL_CANCELLED" "" false
      = .error "direction must be either 'BUY' or 'SELL'"
    ∧ (∃ r, sendOrder sampleClient 1600000000000 (some "BTC-USD") "BUY" "LIMIT"
        (some 1) none (some 9000) "GOOD_TIL_CANCELLED" "" false = .ok r) :=
  ⟨rfl, rfl, ⟨_, rfl⟩⟩

/-!  ## C8 — strict nonce monotonicity -/

theorem request_apiKey_eq (c : Client) (method url : String)
    (headers : List (String × String)) (params : List (String × JsValue)) :
    ((request c method url headers params).2).apiKey = c.apiKey := by
  simp only [request]
  split <;> rfl

theorem request_nonce_eq (c : Client) (method url : String)
    (headers : List (String × String)) (params : List (String × JsValue))
    (h : jsTruthyOptStr c.apiKey = true) :
    ((request c method url headers params).2).nonce = c.nonce + 1 := by
  simp [request, h]

theorem request_nonce_param (c : Client) (method url : String)
    (headers : List (String × String)) (params : List (String × JsValue))
    (h : jsTruthyOptStr c.apiKey = true) :
    nonceOf (request c method url headers params).1 = ((c.nonce + 1 : Nat) : Int) := by
  simp only [request, h, if_true, nonceOf]
  rw [jsGetField_jsSetField_ne _ _ _ _ (by decide), jsGetField_jsSetField_self]

theorem runCalls_length (c : Client) (calls : List Call) :
    (runCalls c calls).1.length = calls.length := by
  induction calls generalizing c with
  | nil => rfl
  | cons call rest ih => simp [runCalls, ih]

theorem runCalls_nonceOf (c : Client) (calls : List Call)
    (h : jsTruthyOptStr c.apiKey = true) (i : Nat)
    (hi : i < (runCalls c calls).1.length) :
    nonceOf ((runCalls c calls).1.get ⟨i, hi⟩) = ((c.nonce + 1 + i : Nat) : Int) := by
  induction calls generalizing c i with
  | nil => simp [runCalls] at hi
  | cons call rest ih =>
    cases i with
    | zero =>
      simpa [runCalls] using request_nonce_param c call.method call.url
        call.headers call.params h
    | succ i =>
      have h' : jsTruthyOptStr
          ((request c call.method call.url call.headers call.params).2).apiKey
          = true := by
        rw [request_apiKey_eq]; exact h
      have hi' : i <
          (runCalls (request c call.method call.url call.headers call.params).2
            rest).1.length := by
        have := hi
        simp only [runCalls, List.length_cons] at this
        omega
      have := ih (request c call.method call.url call.headers call.params).2 h' i hi'
      rw [request_nonce_eq _ _ _ _ _ h] at this
      have hget : ((runCalls c (call :: rest)).1.get ⟨i + 1, hi⟩)
          = ((runCalls (request c call.method call.url call.headers
              call.params).2 rest).1.get ⟨i, hi'⟩) := by
        simp [runCalls]
      rw [hget, this]
      push_cast
      ring

/-- C8: within one client instance, every authenticated request carries a
nonce strictly greater than that of every earlier request: in a trace of
calls issued through a client whose API key is set, the nonce parameter at
position `i` is strictly below the one at any later position `j`. -/
theorem claim8_nonce_strictly_increasing (c : Client) (calls : List Call)
    (h : jsTruthyOptStr c.apiKey = true) (i j : Nat) (hij : i < j)
    (hj : j < (runCalls c calls).1.length) :
    nonceOf ((runCalls c calls).1.get ⟨i, Nat.lt_trans hij hj⟩)
      < nonceOf ((runCalls c calls).1.get ⟨j, hj⟩) := by
  rw [runCalls_nonceOf c calls h i (Nat.lt_trans hij hj),
    runCalls_nonceOf c calls h j hj]
  push_cast
  omega

/-- Witness for C8: two consecutive calls through the sample client carry
strictly increasing nonces. -/
theorem claim8_nonce_strictly_increasing_witness :
    nonceOf ((runCalls sampleClient
        [⟨"get", "/account/getbalances", [], []⟩,
         ⟨"get", "/market/getopenorders", [], []⟩]).1.get
      ⟨0, by simp [runCalls_length]⟩)
      < nonceOf ((runCalls sampleClient
        [⟨"get", "/account/getbalances", [], []⟩,
         ⟨"get", "/market/getopenorders", [], []⟩]).1.get
      ⟨1, by simp [runCalls_length]⟩) :=
  claim8_nonce_strictly_increasing sampleClient
    [⟨"get", "/account/getbalances", [], []⟩,
     ⟨"get", "/market/getopenorders", [], []⟩]
    rfl 0 1 (by omega) (by simp [runCalls_length])

/-!  ## C9 — the API secret never crosses the network boundary -/

/-- C9: two clients that differ only in `apiSecret` produce transport
requests that agree on method, url, query parameters, nonce state, and on
every header other than the signature-bearing `apisign`; in the body-hash
scheme (`requestAuth`) they agree on everything sent except
`signedMessage` — in particular the transmitted API key, timestamp and
content hash are secret-independent. -/
theorem claim9_secret_not_transmitted (c : Client) (s2 : String)
    (method url : String) (headers : List (String × String))
    (params : List (String × JsValue)) (timestamp : Nat)
    (body : List (String × JsValue)) :
    (request { c with apiSecret := s2 } method url headers params).1.method
        = (request c method url headers params).1.method
    ∧ (request { c with apiSecret := s2 } method url headers params).1.url
        = (request c method url headers params).1.url
    ∧ (request { c with apiSecret := s2 } method url headers params).1.params
        = (request c method url headers params).1.params
    ∧ dropStrField
        (request { c with apiSecret := s2 } method url headers params).1.headers
        "apisign"
      = dropStrField (request c method url headers params).1.headers "apisign"
    ∧ (request { c with apiSecret := s2 } method url headers params).2.nonce
        = (request c method url headers params).2.nonce
    ∧ (requestAuth { c with apiSecret := s2 } timestamp method url body).apiKey
        = (requestAuth c timestamp method url body).apiKey
    ∧ (requestAuth { c with apiSecret := s2 } timestamp method url body).timestamp
        = (requestAuth c timestamp method url body).timestamp
    ∧ (requestAuth { c with apiSecret := s2 } timestamp method url body).contentHash
        = (requestAuth c timestamp method url body).contentHash
    ∧ (requestAuth { c with apiSecret := s2 } timestamp method url body).content
        = (requestAuth c timestamp method url body).content := by
  obtain ⟨key, secret, nonce⟩ := c
  by_cases h : jsTruthyOptStr key <;>
    simp [request, requestAuth, h, dropStrField_setStrField]

/-!  ## C1 — the `apisign` header -/

theorem hexChar_isLowerHex : ∀ n < 16, isLowerHex (hexChar n) = true := by decide

theorem mem_bytesOfNatBE_lt (n len b : Nat) (hb : b ∈ bytesOfNatBE n len) :
    b < 256 := by
  simp only [bytesOfNatBE, List.mem_map] at hb
  obtain ⟨i, _, rfl⟩ := hb
  exact Nat.mod_lt _ (by norm_num)

theorem mem_sha512Bytes_lt (msg : List Nat) (b : Nat) (hb : b ∈ sha512Bytes msg) :
    b < 256 := by
  simp only [sha512Bytes, List.mem_flatten, List.mem_map] at hb
  obtain ⟨l, ⟨w, _, rfl⟩, hbl⟩ := hb
  exact mem_bytesOfNatBE_lt _ _ _ hbl

theorem mem_hmacSha512_lt (key msg : List Nat) (b : Nat)
    (hb : b ∈ hmacSha512 key msg) : b < 256 :=
  mem_sha512Bytes_lt _ _ hb

theorem bytesToHex_lowerHex (l : List Nat) (hl : ∀ b ∈ l, b < 256) :
    ∀ ch ∈ (bytesToHex l).data, isLowerHex ch = true := by
  intro ch hch
  have hch' : ch ∈ (l.map hexOfByte).flatten := hch
  simp only [List.mem_flatten, List.mem_map] at hch'
  obtain ⟨pair, ⟨b, hbl, rfl⟩, hchp⟩ := hch'
  have hb : b < 256 := hl b hbl
  simp only [hexOfByte, List.mem_cons, List.mem_singleton] at hchp
  rcases hchp with rfl | rfl | hfalse
  · exact hexChar_isLowerHex _ ((Nat.div_lt_iff_lt_mul (by norm_num)).mpr hb)
  · exact hexChar_isLowerHex _ (Nat.mod_lt _ (by norm_num))
  · cases hfalse

/-- C1: for an authenticated request, the `apisign` header is exactly the
HMAC-SHA512, keyed by the client's `apiSecret`, of
`baseURL + path + '?' + querystring(sanitized params + nonce + apikey)`,
rendered in lowercase hex; every character of the signature is a lowercase
hex digit; and the signature depends only on the key, secret and nonce of
the client, so for fixed inputs it is byte-for-byte reproducible. -/
theorem claim1_apisign_hmac (c : Client) (method path : String)
    (headers : List (String × String)) (params : List (String × JsValue))
    (h : jsTruthyOptStr c.apiKey = true) :
    getStrField (request c method path headers params).1.headers "apisign"
      = some (hmacSha512Hex (strUtf8 c.apiSecret)
          (strUtf8 (baseURL ++ path ++ "?" ++ qsStringify
            (jsSetField (jsSetField (sanitizeParams params) "nonce"
                (.num ((c.nonce + 1 : Nat) : Int)))
              "apikey" (.str (c.apiKey.getD ""))))))
    ∧ (∀ sig, getStrField (request c method path headers params).1.headers "apisign"
          = some sig → ∀ ch ∈ sig.data, isLowerHex ch = true)
    ∧ (∀ c' : Client, c'.apiKey = c.apiKey → c'.apiSecret = c.apiSecret →
        c'.nonce = c.nonce →
        getStrField (request c' method path headers params).1.headers "apisign"
          = getStrField (request c method path headers params).1.headers "apisign") := by
  have hmain : getStrField (request c method path headers params).1.headers "apisign"
      = some (requestSignature c path
          (jsSetField (jsSetField (sanitizeParams params) "nonce"
              (.num ((c.nonce + 1 : Nat) : Int)))
            "apikey" (.str (c.apiKey.getD "")))) := by
    simp [request, h, getStrField_setStrField_self]
  refine ⟨hmain, ?_, ?_⟩
  · intro sig hsig ch hch
    rw [hmain] at hsig
    have hs := Option.some.inj hsig
    subst hs
    exact bytesToHex_lowerHex _ (fun b hb => mem_hmacSha512_lt _ _ b hb) ch hch
  · intro c' h1 h2 h3
    obtain ⟨k1, s1, n1⟩ := c'
    obtain ⟨k2, s2, n2⟩ := c
    cases h1
    cases h2
    cases h3
    rfl

/-- Witness for C1: the sample client's signed balance request carries the
HMAC-SHA512 of the fully assembled URL (sanitized params with nonce and
apikey appended). -/
theorem claim1_apisign_hmac_witness :
    getStrField (request sampleClient "get" "/account/getbalance" []
        [("currency", JsValue.str "BTC")]).1.headers "apisign"
      = some (hmacSha512Hex (strUtf8 "secret")
          (strUtf8 (baseURL ++ "/account/getbalance" ++ "?" ++ qsStringify
            [("currency", JsValue.str "BTC"), ("nonce", JsValue.num 1600000000001),
             ("apikey", JsValue.str "key")]))) :=
  (claim1_apisign_hmac sampleClient "get" "/account/getbalance" []
    [("currency", JsValue.str "BTC")] rfl).1

end BittrexClient

